import Mathlib

/-!
Verification development for the PO-Detail inventory forecaster (`po.py`).

Modelling conventions:
* Quantity cells and all stock arithmetic are modelled with exact rationals
  (`ℚ`), abstracting from IEEE-754 rounding of Python floats.
* Raw spreadsheet cell text is modelled as `String` (the source applies
  `str(value)` before any processing).
* Python's builtin `float(s)` is modelled by `parsePyFloat`, a parser for
  finite decimal literals with optional sign, fractional part and exponent
  (the special texts `inf`/`nan` and digit-group underscores are outside the
  model; no claim mentions them).
* `pd.to_datetime(..., dayfirst=True, errors="coerce").dt.strftime("%d/%m")`
  is an external pandas capability; its result is modelled as the
  `Option String` field `dueDate` of an input row (`none` = parse failure).
-/

/-- Python `str.strip` whitespace class (space, tab, newline, CR, VT, FF). -/
def pyIsSpace (c : Char) : Bool :=
  c == ' ' || c == '\t' || c == '\n' || c == '\r' || c == '\x0b' || c == '\x0c'

/-- `s.strip()` on a character list: drop whitespace from both ends. -/
def pyStrip (cs : List Char) : List Char :=
  ((cs.dropWhile pyIsSpace).reverse.dropWhile pyIsSpace).reverse

/-- `s.replace(",", "")`: delete every comma character. -/
def stripCommas (cs : List Char) : List Char :=
  cs.filter (fun c => !(c == ','))

/-- Numeric value of a decimal digit character. -/
def digToNat (c : Char) : Nat := c.toNat - '0'.toNat

/-- Value of a digit string read in base 10. -/
def natOfDigits (cs : List Char) : Nat :=
  cs.foldl (fun n c => 10 * n + digToNat c) 0

/-- Sign prefix of a numeric literal: a leading `-` or `+` is consumed;
the flag is `true` for a nonnegative literal. -/
def stripSign (cs : List Char) : Bool × List Char :=
  match cs with
  | c :: t => if c == '-' then (false, t) else if c == '+' then (true, t) else (true, c :: t)
  | [] => (true, [])

/-- Digits of an exponent whose sign is already stripped; the mantissa is
carried as the fraction `num / den`. -/
def parseExpMag (num den : Nat) (isPos : Bool) (ds : List Char) : Option ℚ :=
  let dig := ds.takeWhile Char.isDigit
  if dig.isEmpty || !(ds.dropWhile Char.isDigit).isEmpty then none
  else
    let e := natOfDigits dig
    some (if isPos then mkRat (num * 10 ^ e) den else mkRat num (den * 10 ^ e))

/-- Exponent suffix of a float literal: optional sign then digits. -/
def parseExpPart (num den : Nat) (cs : List Char) : Option ℚ :=
  parseExpMag num den (stripSign cs).1 (stripSign cs).2

/-- What may follow the mantissa: nothing, or `e`/`E` and an exponent. -/
def parseMantissaRest (num den : Nat) (rest : List Char) : Option ℚ :=
  match rest with
  | [] => some (mkRat num den)
  | c :: t => if c == 'e' || c == 'E' then parseExpPart num den t else none

/-- Unsigned float literal: digits, optional `.digits`, optional exponent.
The value of `ip.fp` is `natOfDigits (ip ++ fp) / 10 ^ fp.length`. -/
def parseUnsignedFloat (cs : List Char) : Option ℚ :=
  let ip := cs.takeWhile Char.isDigit
  let r1 := cs.dropWhile Char.isDigit
  let fr : List Char × List Char := match r1 with
    | '.' :: t => (t.takeWhile Char.isDigit, t.dropWhile Char.isDigit)
    | t => ([], t)
  if ip.isEmpty && fr.1.isEmpty then none
  else parseMantissaRest (natOfDigits (ip ++ fr.1)) (10 ^ fr.1.length) fr.2

/-- Model of Python `float(s)` on finite decimal literals: optional sign
then unsigned literal; `none` models the `ValueError` caught by the
normalizers. Python's `float` additionally accepts `inf`/`nan` and
underscore digit groupings, which are outside this model; no claim's
statement relies on their absence. -/
def parsePyFloat (cs : List Char) : Option ℚ :=
  if (stripSign cs).1 then parseUnsignedFloat (stripSign cs).2
  else (parseUnsignedFloat (stripSign cs).2).map (fun q => -q)

/-- `format_add` (po.py lines 41–48): strip commas and whitespace, parse as
float, default `0.0` on blank or parse failure. -/
def format_add (value : String) : ℚ :=
  let s := pyStrip (stripCommas value.data)
  if s.isEmpty then 0 else (parsePyFloat s).getD 0

/-- `format_on_hand` (po.py lines 50–57): duplicated body of `format_add`. -/
def format_on_hand (value : String) : ℚ :=
  let s := pyStrip (stripCommas value.data)
  if s.isEmpty then 0 else (parsePyFloat s).getD 0

/-- `format_ship_qty` (po.py lines 59–66): duplicated body of `format_add`. -/
def format_ship_qty (value : String) : ℚ :=
  let s := pyStrip (stripCommas value.data)
  if s.isEmpty then 0 else (parsePyFloat s).getD 0

/-! ## The core pipeline (`process_inventory`, po.py lines 89–153)

A reference row carries the already-normalized quantity fields (`On Hand`
and `ADD` pass through `format_on_hand` / `format_add` at lines 90–91); an
input row carries the normalized `Ship Qty` and the day/month label produced
by the pandas date coercion at lines 93–97 (`none` = unparsable date). -/

/-- One row of the reference table after normalization (lines 90–91). -/
structure RefRow where
  opc : String
  descr : String
  sku : String
  onHand : ℚ
  add : ℚ
deriving DecidableEq

/-- One row of the input (shipments) table after normalization
(lines 89, 93–97). -/
structure InputRow where
  opc : String
  dueDate : Option String
  shipQty : ℚ
deriving DecidableEq

/-- Line 98: rows whose raw date failed to parse are dropped (their key is
also excluded from the line-114 `groupby`, which ignores null keys). -/
def dropUnparsedDates (input : List InputRow) : List InputRow :=
  input.filter (fun r => r.dueDate.isSome)

/-- First-occurrence deduplication (a Python `set` is used only through
membership and difference, so the representative order is immaterial). -/
def dedupAux (seen : List String) : List String → List String
  | [] => []
  | x :: xs => if seen.contains x then dedupAux seen xs else x :: dedupAux (x :: seen) xs

/-- The distinct elements of a string list, first occurrences kept. -/
def dedupStr (l : List String) : List String :=
  dedupAux [] l

/-- Line 101: `ref_opcs = set(df_ref["OPC"])`. -/
def refOpcs (refs : List RefRow) : List String :=
  dedupStr (refs.map RefRow.opc)

/-- Line 102: keep only input rows whose OPC exists in the reference set. -/
def keepKnownOpcs (opcs : List String) (input : List InputRow) : List InputRow :=
  input.filter (fun r => opcs.contains r.opc)

/-- Lines 106–109: append a `Ship Qty = 0`, `Due Date = None` placeholder
row for every reference OPC absent from the input. -/
def addMissingOpcs (opcs : List String) (input : List InputRow) : List InputRow :=
  input ++ (opcs.filter (fun o => !(input.any (fun r => r.opc == o)))).map
    (fun o => { opc := o, dueDate := none, shipQty := 0 })

/-- The input rows as they stand just before the line-114 `groupby`. -/
def pipelineRows (refs : List RefRow) (input : List InputRow) : List InputRow :=
  addMissingOpcs (refOpcs refs) (keepKnownOpcs (refOpcs refs) (dropUnparsedDates input))

/-- The rows that carry a (non-null) `groupby` key at line 114: pandas
drops null keys, so placeholder rows never form a group. -/
def aggRows (refs : List RefRow) (input : List InputRow) : List InputRow :=
  (pipelineRows refs input).filter (fun r => r.dueDate.isSome)

/-- The distinct due-day labels of one OPC: the `Due Date` halves of the
line-114 group keys restricted to this OPC (`sub_df["Due Date"]`). -/
def shipKeys (rows : List InputRow) (opc : String) : List String :=
  dedupStr ((rows.filter (fun r => r.opc == opc)).filterMap (fun r => r.dueDate))

/-- Total shipped quantity of one `(OPC, Due Date)` group (line 114 sum). -/
def shipTotal (rows : List InputRow) (opc : String) (day : String) : ℚ :=
  ((rows.filter (fun r => r.opc == opc && r.dueDate == some day)).map
    InputRow.shipQty).sum

/-- Line 127: `ship_dict = dict(zip(sub_df["Due Date"], sub_df["Ship Qty"]))`,
the per-OPC day-label → summed-quantity mapping (keys are distinct). -/
def shipDict (rows : List InputRow) (opc : String) : List (String × ℚ) :=
  (shipKeys rows opc).map (fun d => (d, shipTotal rows opc d))

/-- Lines 129–140: the day-by-day walk. `dIdx` is `d_idx` (1-based), `stock`
is `current_stock`, `dtn` is `days_to_negative`. Returns `daily_inv` and the
final `days_to_negative`. -/
def simWalk (add : ℚ) (sd : List (String × ℚ)) :
    List String → Nat → ℚ → Option Nat → List ℚ × Option Nat
  | [], _, _, dtn => ([], dtn)
  | day :: rest, dIdx, stock, dtn =>
    let stock1 := (match sd.lookup day with
      | some q => stock + q
      | none => stock) - add
    let dtn1 := if dtn = none ∧ stock1 < 0 then some dIdx else dtn
    let next := simWalk add sd rest (dIdx + 1) stock1 dtn1
    (stock1 :: next.1, next.2)

/-- Lines 129–140 entry point: initial stock `oh`, day index starting at 1,
`days_to_negative` starting unset. -/
def simulate (oh add : ℚ) (sd : List (String × ℚ)) (days : List String) :
    List ℚ × Option Nat :=
  simWalk add sd days 1 oh none

/-- One row of the "Inventory Status" sheet (line 143 `row_data`). -/
structure InvRow where
  descr : String
  sku : String
  opc : String
  onHand : ℚ
  add : ℚ
  totalShip : ℚ
  dailyInv : List ℚ
deriving DecidableEq

/-- One row of the "Negative Tracking" sheet (line 147). -/
structure NegRow where
  descr : String
  sku : String
  opc : String
  onHand : ℚ
  add : ℚ
  daysToNegative : Nat
deriving DecidableEq

/-- Line 142: `total_ship = sub_df["Ship Qty"].sum() if len(sub_df) else 0.0`
(the sum of an empty group list is already `0`). -/
def totalShipOf (rows : List InputRow) (opc : String) : ℚ :=
  ((shipDict rows opc).map Prod.snd).sum

/-- Lines 126–144: build the Inventory Status row of one reference row. -/
def mkInvRow (rows : List InputRow) (days : List String) (r : RefRow) : InvRow :=
  { descr := r.descr, sku := r.sku, opc := r.opc, onHand := r.onHand,
    add := r.add, totalShip := totalShipOf rows r.opc,
    dailyInv := (simulate r.onHand r.add (shipDict rows r.opc) days).1 }

/-- The `days_to_negative` the walk computes for one reference row. -/
def dtnOf (rows : List InputRow) (days : List String) (r : RefRow) : Option Nat :=
  (simulate r.onHand r.add (shipDict rows r.opc) days).2

/-- Lines 98–147: the whole core, from normalized tables and the externally
supplied horizon labels (line 112 `date_columns`) to the two sheets. -/
def process_inventory (refs : List RefRow) (input : List InputRow)
    (days : List String) : List InvRow × List NegRow :=
  let rows := aggRows refs input
  (refs.map (fun r => mkInvRow rows days r),
   refs.filterMap (fun r =>
     match dtnOf rows days r with
     | some k => if k ≤ 4 then some ⟨r.descr, r.sku, r.opc, r.onHand, r.add, k⟩ else none
     | none => none))

/-! ## The table loader (`try_read_excel_line_check`, po.py lines 12–34)

An Excel sheet is a list of rows; a cell is `Option String` (`none` = an
empty cell, which pandas reads as NaN). `pd.read_excel(filepath, header=h)`
takes row `h` as the column index and the rows below it as data. -/

/-- A loaded frame: column names (a NaN header cell stays `none`, which can
never equal a required name) and data rows. -/
structure Table where
  columns : List (Option String)
  data : List (List (Option String))
deriving DecidableEq

/-- Outcome of the loader. `missingColumns` is the `ValueError` raised at
line 31; `indexError` is the `IndexError` that `df.iloc[0]` raises on a
frame with no data rows; `readError` is a failure of `pd.read_excel`
itself (header row beyond the sheet). -/
inductive LoadError where
  | missingColumns
  | indexError
  | readError
deriving DecidableEq

/-- Result of `try_read_excel_line_check`: a frame or a raised error. -/
inductive LoadResult where
  | ok (t : Table)
  | error (e : LoadError)
deriving DecidableEq

/-- `pd.read_excel(filepath, header=h)`: row `h` becomes the column index,
rows below become the data. -/
def readExcelTable (src : List (List (Option String))) (h : Nat) : Option Table :=
  if hh : h < src.length then some ⟨src.get ⟨h, hh⟩, src.drop (h + 1)⟩ else none

/-- Lines 18–19 / 25–26: `if df.iloc[0].isna().all(): df = df.iloc[1:]`.
On an empty frame `df.iloc[0]` raises `IndexError`. -/
def dropEmptyLeadingRow (t : Table) : LoadResult :=
  match t.data with
  | [] => .error .indexError
  | r0 :: rest => if r0.all (fun c => c.isNone) then .ok ⟨t.columns, rest⟩ else .ok t

/-- Lines 21 / 28: `all(col in df.columns for col in required_headers)`. -/
def hasRequiredColumns (t : Table) (required : List String) : Bool :=
  required.all (fun c => t.columns.contains (some c))

/-- `try_read_excel_line_check` (lines 12–34): try header offset 0, then
offset 1, each after discarding a fully-empty leading data row; raise
`ValueError` (missing columns) if neither offset shows all required
headers. -/
def try_read_excel_line_check (src : List (List (Option String)))
    (required : List String) : LoadResult :=
  match readExcelTable src 0 with
  | none => .error .readError
  | some df =>
    match dropEmptyLeadingRow df with
    | .error e => .error e
    | .ok df =>
      if hasRequiredColumns df required then .ok df
      else
        match readExcelTable src 1 with
        | none => .error .readError
        | some df2 =>
          match dropEmptyLeadingRow df2 with
          | .error e => .error e
          | .ok df2 =>
            if hasRequiredColumns df2 required then .ok df2
            else .error .missingColumns

/-! ## Concrete evaluations (the worked scenarios of the specification) -/

example : format_add "1,234" = 1234 := by decide
example : format_add "N/A" = 0 := by decide
example : format_add "" = 0 := by decide
example : format_add "1,5" = 15 := by decide
example : format_add "1,2,3" = 123 := by decide
example : format_on_hand "-1" = -1 := by decide
example : format_add "  12.5 " = mkRat 125 10 := by decide
example : format_add "2e3" = 2000 := by decide
example : format_add "2e-2" = mkRat 2 100 := by decide
example : format_add "." = 0 := by decide
example : format_add "1.25" = mkRat 125 100 := by decide

example :
    try_read_excel_line_check
      [[some "x", none], [some "OPC", some "Due Date", some "Ship Qty"], [some "A", some "1/2", some "3"]]
      ["OPC", "Due Date", "Ship Qty"] =
    .ok ⟨[some "OPC", some "Due Date", some "Ship Qty"], [[some "A", some "1/2", some "3"]]⟩ := by
  decide

unseal Rat.add Rat.sub in
example :
    process_inventory [⟨"A", "d", "s", 10, 15⟩]
      [⟨"A", some "x2", 5⟩] ["x1", "x2"] =
    ([⟨"d", "s", "A", 10, 15, 5, [-5, -15]⟩], [⟨"d", "s", "A", 10, 15, 1⟩]) := by
  decide

unseal Rat.add Rat.sub in
example :
    (process_inventory [⟨"A", "d", "s", 100, 20⟩] []
      ["d1", "d2", "d3", "d4", "d5", "d6", "d7", "d8"]).1 =
    [⟨"d", "s", "A", 100, 20, 0, [80, 60, 40, 20, 0, -20, -40, -60]⟩] := by
  decide

unseal Rat.add Rat.sub in
example :
    (process_inventory [⟨"A", "d", "s", 100, 20⟩] []
      ["d1", "d2", "d3", "d4", "d5", "d6", "d7", "d8"]).2 = [] := by
  decide

/-! ## Properties of the day-by-day walk -/

lemma simWalk_cons (add : ℚ) (sd : List (String × ℚ)) (day : String)
    (rest : List String) (dIdx : Nat) (stock : ℚ) (dtn : Option Nat) :
    simWalk add sd (day :: rest) dIdx stock dtn =
      ((stock + ((sd.lookup day).getD 0) - add) ::
        (simWalk add sd rest (dIdx + 1) (stock + ((sd.lookup day).getD 0) - add)
          (if dtn = none ∧ stock + ((sd.lookup day).getD 0) - add < 0 then some dIdx
           else dtn)).1,
      (simWalk add sd rest (dIdx + 1) (stock + ((sd.lookup day).getD 0) - add)
          (if dtn = none ∧ stock + ((sd.lookup day).getD 0) - add < 0 then some dIdx
           else dtn)).2) := by
  cases h : sd.lookup day <;> simp [simWalk, h]

lemma simWalk_length (add : ℚ) (sd : List (String × ℚ)) :
    ∀ (days : List String) (dIdx : Nat) (stock : ℚ) (dtn : Option Nat),
      (simWalk add sd days dIdx stock dtn).1.length = days.length := by
  intro days
  induction days with
  | nil => intro dIdx stock dtn; rfl
  | cons day rest ih =>
    intro dIdx stock dtn
    rw [simWalk_cons]
    simp [ih]

lemma simWalk_snd_some (add : ℚ) (sd : List (String × ℚ)) :
    ∀ (days : List String) (dIdx : Nat) (stock : ℚ) (k : Nat),
      (simWalk add sd days dIdx stock (some k)).2 = some k := by
  intro days
  induction days with
  | nil => intro dIdx stock k; rfl
  | cons day rest ih =>
    intro dIdx stock k
    rw [simWalk_cons]
    simp only [reduceCtorEq, false_and, if_false]
    exact ih (dIdx + 1) _ k

lemma simWalk_getD (add : ℚ) (sd : List (String × ℚ)) :
    ∀ (days : List String) (dIdx : Nat) (stock : ℚ) (dtn : Option Nat) (i : Nat),
      i < days.length →
      (simWalk add sd days dIdx stock dtn).1.getD i 0 =
        stock + ((days.take (i + 1)).map (fun d => (sd.lookup d).getD 0)).sum
          - ((i : ℚ) + 1) * add := by
  intro days
  induction days with
  | nil => intro dIdx stock dtn i hi; exact absurd hi (Nat.not_lt_zero i)
  | cons day rest ih =>
    intro dIdx stock dtn i hi
    rw [simWalk_cons]
    cases i with
    | zero => simp
    | succ j =>
      have hj : j < rest.length := by simpa using hi
      rw [List.getD_cons_succ, ih _ _ _ j hj, List.take_succ_cons]
      simp only [List.map_cons, List.sum_cons]
      push_cast
      ring

lemma simWalk_dtn_spec (add : ℚ) (sd : List (String × ℚ)) :
    ∀ (days : List String) (dIdx : Nat) (stock : ℚ),
      ((simWalk add sd days dIdx stock none).2 = none →
        ∀ j, j < days.length → 0 ≤ (simWalk add sd days dIdx stock none).1.getD j 0) ∧
      (∀ k, (simWalk add sd days dIdx stock none).2 = some k →
        dIdx ≤ k ∧ k < dIdx + days.length ∧
        (simWalk add sd days dIdx stock none).1.getD (k - dIdx) 0 < 0 ∧
        ∀ j, j < k - dIdx → 0 ≤ (simWalk add sd days dIdx stock none).1.getD j 0) := by
  intro days
  induction days with
  | nil =>
    intro dIdx stock
    constructor
    · intro _ j hj; exact absurd hj (Nat.not_lt_zero j)
    · intro k hk; simp [simWalk] at hk
  | cons day rest ih =>
    intro dIdx stock
    rw [simWalk_cons]
    by_cases hneg : stock + ((sd.lookup day).getD 0) - add < 0
    · rw [if_pos ⟨rfl, hneg⟩]
      constructor
      · intro h2
        rw [simWalk_snd_some] at h2
        exact absurd h2 (by simp)
      · intro k hk
        rw [simWalk_snd_some] at hk
        have hkd : k = dIdx := by injection hk.symm
        subst hkd
        refine ⟨le_refl k, by simp, ?_, ?_⟩
        · simpa using hneg
        · intro j hj; omega
    · rw [if_neg (fun h => hneg h.2)]
      obtain ⟨ihnone, ihsome⟩ := ih (dIdx + 1) (stock + ((sd.lookup day).getD 0) - add)
      constructor
      · intro h2 j hj
        cases j with
        | zero => simpa using le_of_not_lt hneg
        | succ j' =>
          rw [List.getD_cons_succ]
          exact ihnone h2 j' (by simpa using hj)
      · intro k hk
        obtain ⟨h1, h2, h3, h4⟩ := ihsome k hk
        refine ⟨by omega, by simp; omega, ?_, ?_⟩
        · have hkk : k - dIdx = (k - (dIdx + 1)) + 1 := by omega
          rw [hkk, List.getD_cons_succ]
          exact h3
        · intro j hj
          cases j with
          | zero => simpa using le_of_not_lt hneg
          | succ j' =>
            rw [List.getD_cons_succ]
            exact h4 j' (by omega)

/-- C2: for every simulated item, if `firstNegativeDayIndex`
(`days_to_negative`) is set then it is the minimal day index `i` with
`dailyStock[i] < 0` — the stock at that index is negative and every earlier
day is nonnegative — and if no daily stock entry is negative it is unset
(equivalently: when it is unset, every entry is nonnegative, and when it is
set, a negative entry exists at it). -/
theorem claim_C2 (oh add : ℚ) (sd : List (String × ℚ)) (days : List String) :
    ((simulate oh add sd days).2 = none →
      ∀ j, j < days.length → 0 ≤ (simulate oh add sd days).1.getD j 0) ∧
    (∀ k, (simulate oh add sd days).2 = some k →
      1 ≤ k ∧ k ≤ days.length ∧
      (simulate oh add sd days).1.getD (k - 1) 0 < 0 ∧
      ∀ j, j < k - 1 → 0 ≤ (simulate oh add sd days).1.getD j 0) := by
  obtain ⟨hnone, hsome⟩ := simWalk_dtn_spec add sd days 1 oh
  constructor
  · exact hnone
  · intro k hk
    obtain ⟨h1, h2, h3, h4⟩ := hsome k hk
    exact ⟨h1, by omega, h3, h4⟩

/-- Witness for C2 at a concrete item: `onHand = 10`, `dailyDemand = 15`,
no shipments, a two-day horizon; the index is set to day 1 and the stock
there is negative. -/
theorem claim_C2_witness :
    (simulate 10 15 [] ["a", "b"]).2 = some 1 ∧
    (1 ≤ 1 ∧ 1 ≤ (["a", "b"] : List String).length ∧
      (simulate 10 15 [] ["a", "b"]).1.getD (1 - 1) 0 < 0 ∧
      ∀ j, j < 1 - 1 → 0 ≤ (simulate 10 15 [] ["a", "b"]).1.getD j 0) := by
  have h : (simulate (10:ℚ) 15 [] ["a", "b"]).2 = some 1 := by
    simp [simulate, simWalk]; norm_num
  exact ⟨h, (claim_C2 10 15 [] ["a", "b"]).2 1 h⟩

/-! ## Summing the shipment dictionary over a set of day labels -/

lemma sum_filter_orB :
    ∀ (l : List (String × ℚ)) (p q : (String × ℚ) → Bool),
      (∀ x ∈ l, ¬(p x = true ∧ q x = true)) →
      ((l.filter (fun x => p x || q x)).map Prod.snd).sum
        = ((l.filter p).map Prod.snd).sum + ((l.filter q).map Prod.snd).sum := by
  intro l
  induction l with
  | nil => intro p q _; simp
  | cons a t ih =>
    intro p q h
    have ha := h a (List.mem_cons_self a t)
    have ht : ∀ x ∈ t, ¬(p x = true ∧ q x = true) :=
      fun x hx => h x (List.mem_cons_of_mem a hx)
    cases hp : p a <;> cases hq : q a
    · simp [List.filter_cons, hp, hq, ih p q ht]
    · simp only [List.filter_cons, hp, hq, Bool.false_or, Bool.true_or, if_true,
        Bool.false_eq_true, if_false, eq_self_iff_true, List.map_cons, List.sum_cons]
      rw [ih p q ht]
      ring
    · simp only [List.filter_cons, hp, hq, Bool.false_or, Bool.true_or, if_true,
        Bool.false_eq_true, if_false, eq_self_iff_true, List.map_cons, List.sum_cons]
      rw [ih p q ht]
      ring
    · exact absurd ⟨hp, hq⟩ ha

lemma lookupD_filter :
    ∀ (sd : List (String × ℚ)) (d : String), (sd.map Prod.fst).Nodup →
      ((sd.filter (fun x => x.1 == d)).map Prod.snd).sum = (sd.lookup d).getD 0 := by
  intro sd
  induction sd with
  | nil => intro d _; simp
  | cons a rest ih =>
    intro d h
    rw [List.map_cons] at h
    obtain ⟨hk, hrest⟩ := List.nodup_cons.mp h
    by_cases hkd : a.1 = d
    · have hbeq : (a.1 == d) = true := beq_iff_eq.mpr hkd
      have hlook : (a :: rest).lookup d = some a.2 := by
        rw [show a = (a.1, a.2) from rfl, List.lookup_cons]
        simp [beq_iff_eq, hkd.symm]
      have hnil : rest.filter (fun x => x.1 == d) = [] := by
        refine List.filter_eq_nil_iff.mpr (fun x hx => ?_)
        simp only [beq_iff_eq]
        intro hxd
        apply hk
        rw [hkd, ← hxd]
        exact List.mem_map_of_mem Prod.fst hx
      simp [List.filter_cons, hbeq, hnil, hlook]
    · have hbeq : (a.1 == d) = false := by
        simp [beq_iff_eq]; exact hkd
      have hlook : (a :: rest).lookup d = rest.lookup d := by
        rw [show a = (a.1, a.2) from rfl, List.lookup_cons]
        have hdk : (d == a.1) = false := by
          simp [beq_iff_eq]; exact fun hh => hkd hh.symm
        simp [hdk]
      simp [List.filter_cons, hbeq, hlook, ih d hrest]

lemma lookup_sum :
    ∀ (labels : List String) (sd : List (String × ℚ)),
      labels.Nodup → (sd.map Prod.fst).Nodup →
      (labels.map (fun d => (sd.lookup d).getD 0)).sum
        = ((sd.filter (fun x => labels.contains x.1)).map Prod.snd).sum := by
  intro labels
  induction labels with
  | nil =>
    intro sd _ _
    simp [List.filter_eq_nil_iff]
  | cons d ls ih =>
    intro sd hnd hsd
    obtain ⟨hdn, hls⟩ := List.nodup_cons.mp hnd
    have hpred : sd.filter (fun x => (d :: ls).contains x.1)
        = sd.filter (fun x => (x.1 == d) || ls.contains x.1) := by
      simp only [List.contains_cons]
    have hdisj : ∀ x ∈ sd, ¬((x.1 == d) = true ∧ ls.contains x.1 = true) := by
      intro x _ hx12
      obtain ⟨h1, h2⟩ := hx12
      have hx1 : x.1 = d := beq_iff_eq.mp h1
      have h2' : x.1 ∈ ls := by simpa using h2
      exact hdn (hx1 ▸ h2')
    rw [List.map_cons, List.sum_cons, hpred,
      sum_filter_orB sd (fun x => x.1 == d) (fun x => ls.contains x.1) hdisj,
      lookupD_filter sd d hsd, ih sd hls hsd]

/-- C1: closed form of the simulated trajectory. For an item with on-hand
`oh`, daily demand `add`, and per-day-label shipment mapping `sd` (distinct
keys, as produced by the groupby), over the 8-day horizon `days` (distinct
labels, as 8 consecutive dates are), the stock recorded for day `i` equals
`oh` plus the total of the mapped shipment quantities whose day label falls
among horizon days `1..i`, minus `i` times the daily demand — inbound
applied before outbound on the same day, demand subtracted exactly once per
day. -/
theorem claim_C1 (oh add : ℚ) (sd : List (String × ℚ)) (days : List String)
    (hsd : (sd.map Prod.fst).Nodup) (hdays : days.Nodup) (hlen : days.length = 8)
    (i : Nat) (h1 : 1 ≤ i) (h8 : i ≤ 8) :
    (simulate oh add sd days).1.getD (i - 1) 0 =
      oh + ((sd.filter (fun x => (days.take i).contains x.1)).map Prod.snd).sum
        - (i : ℚ) * add := by
  have hi : i - 1 < days.length := by omega
  have hstep := simWalk_getD add sd days 1 oh none (i - 1) hi
  have hii : i - 1 + 1 = i := by omega
  rw [hii] at hstep
  have htake : (days.take i).Nodup := (List.take_sublist i days).nodup hdays
  have hc : ((i - 1 : ℕ) : ℚ) + 1 = (i : ℚ) := by
    rw [Nat.cast_sub h1]
    push_cast
    ring
  simp only [simulate]
  rw [hstep, lookup_sum (days.take i) sd htake hsd, hc]

/-- Witness for C1: item with `onHand = 0`, `dailyDemand = 1`, a shipment
of 5 mapped to label `d1`, the horizon `d1..d8`, at day `i = 2`. -/
theorem claim_C1_witness :
    (([("d1", (5:ℚ))].map Prod.fst).Nodup ∧
      (["d1", "d2", "d3", "d4", "d5", "d6", "d7", "d8"] : List String).Nodup ∧
      (["d1", "d2", "d3", "d4", "d5", "d6", "d7", "d8"] : List String).length = 8 ∧
      1 ≤ 2 ∧ 2 ≤ 8) ∧
    (simulate 0 1 [("d1", (5:ℚ))] ["d1", "d2", "d3", "d4", "d5", "d6", "d7", "d8"]).1.getD (2 - 1) 0 =
      0 + (([("d1", (5:ℚ))].filter
        (fun x => ((["d1", "d2", "d3", "d4", "d5", "d6", "d7", "d8"] : List String).take 2).contains x.1)).map
          Prod.snd).sum - ((2 : Nat) : ℚ) * 1 :=
  ⟨⟨by decide, by decide, by decide, by decide, by decide⟩,
    claim_C1 0 1 [("d1", (5:ℚ))] ["d1", "d2", "d3", "d4", "d5", "d6", "d7", "d8"]
      (by decide) (by decide) (by decide) 2 (by decide) (by decide)⟩

/-! ## The two output sheets -/

lemma process_fst (refs : List RefRow) (input : List InputRow) (days : List String) :
    (process_inventory refs input days).1
      = refs.map (fun r => mkInvRow (aggRows refs input) days r) := rfl

lemma process_snd (refs : List RefRow) (input : List InputRow) (days : List String) :
    (process_inventory refs input days).2
      = refs.filterMap (fun r =>
          match dtnOf (aggRows refs input) days r with
          | some k => if k ≤ 4 then some ⟨r.descr, r.sku, r.opc, r.onHand, r.add, k⟩ else none
          | none => none) := rfl

/-- C3: a reference item is on the "Negative Tracking" watchlist if and
only if its `days_to_negative` is set and at most 4; items whose first
negative day is later than 4 or that never go negative produce no
watchlist row. -/
theorem claim_C3 (refs : List RefRow) (input : List InputRow) (days : List String)
    (r : RefRow) (hr : r ∈ refs) (k : Nat) :
    (dtnOf (aggRows refs input) days r = some k ∧ k ≤ 4) ↔
      NegRow.mk r.descr r.sku r.opc r.onHand r.add k ∈ (process_inventory refs input days).2 := by
  rw [process_snd]
  constructor
  · rintro ⟨hd, hk⟩
    refine List.mem_filterMap.mpr ⟨r, hr, ?_⟩
    simp only [hd, hk, if_true]
  · intro hm
    obtain ⟨r', hr', hf⟩ := List.mem_filterMap.mp hm
    cases hd' : dtnOf (aggRows refs input) days r' with
    | none =>
      simp only [hd'] at hf
      exact absurd hf (by simp)
    | some k' =>
      simp only [hd'] at hf
      by_cases hk4 : k' ≤ 4
      · rw [if_pos hk4] at hf
        simp only [Option.some.injEq, NegRow.mk.injEq] at hf
        obtain ⟨hde, hsk, hop, hoh, had, hkk⟩ := hf
        subst hkk
        have hsame : dtnOf (aggRows refs input) days r = dtnOf (aggRows refs input) days r' := by
          simp only [dtnOf, hop, hoh, had]
        exact ⟨hsame.trans hd', hk4⟩
      · rw [if_neg hk4] at hf
        exact absurd hf (by simp)

unseal Rat.add Rat.sub in
/-- Witness for C3: the spec's scenario item B (onHand 10, demand 15,
first negative day 1 ≤ 4) appears on the watchlist. -/
theorem claim_C3_witness :
    (⟨"A", "d", "s", 10, 15⟩ : RefRow) ∈ [(⟨"A", "d", "s", 10, 15⟩ : RefRow)] ∧
    NegRow.mk "d" "s" "A" 10 15 1 ∈
      (process_inventory [⟨"A", "d", "s", 10, 15⟩] [] ["x"]).2 :=
  ⟨List.mem_singleton.mpr rfl,
    (claim_C3 [⟨"A", "d", "s", 10, 15⟩] [] ["x"] ⟨"A", "d", "s", 10, 15⟩
      (List.mem_singleton.mpr rfl) 1).mp ⟨by decide, by decide⟩⟩

/-! ## Membership facts for the reconciler -/

lemma mem_dedupAux :
    ∀ (l seen : List String) (x : String),
      x ∈ dedupAux seen l ↔ (x ∈ l ∧ x ∉ seen) := by
  intro l
  induction l with
  | nil => intro seen x; simp [dedupAux]
  | cons a t ih =>
    intro seen x
    cases hc : seen.contains a with
    | true =>
      have hamem : a ∈ seen := by simpa using hc
      rw [dedupAux, if_pos hc]
      rw [ih seen x]
      constructor
      · rintro ⟨h1, h2⟩; exact ⟨List.mem_cons_of_mem a h1, h2⟩
      · rintro ⟨h1, h2⟩
        rcases List.mem_cons.mp h1 with h1a | h1t
        · exact absurd (h1a ▸ hamem) h2
        · exact ⟨h1t, h2⟩
    | false =>
      have hanot : a ∉ seen := by simpa using hc
      rw [dedupAux, if_neg (by simpa using hc)]
      constructor
      · intro h
        rcases List.mem_cons.mp h with h1a | h1t
        · exact ⟨h1a ▸ List.mem_cons_self a t, h1a ▸ hanot⟩
        · obtain ⟨h1, h2⟩ := (ih (a :: seen) x).mp h1t
          exact ⟨List.mem_cons_of_mem a h1,
            fun hx => h2 (List.mem_cons_of_mem a hx)⟩
      · rintro ⟨h1, h2⟩
        by_cases hxa : x = a
        · exact hxa ▸ List.mem_cons_self a _
        · rcases List.mem_cons.mp h1 with h1a | h1t
          · exact absurd h1a hxa
          · refine List.mem_cons_of_mem a ((ih (a :: seen) x).mpr ⟨h1t, ?_⟩)
            intro hx
            rcases List.mem_cons.mp hx with hxx | hxx
            · exact hxa hxx
            · exact h2 hxx

lemma mem_dedupStr (l : List String) (x : String) : x ∈ dedupStr l ↔ x ∈ l := by
  rw [dedupStr, mem_dedupAux]
  simp

lemma mem_aggRows_imp {refs : List RefRow} {input : List InputRow} {s : InputRow}
    (h : s ∈ aggRows refs input) : s ∈ input := by
  rw [aggRows] at h
  obtain ⟨hpipe, hsome⟩ := List.mem_filter.mp h
  rw [pipelineRows, addMissingOpcs] at hpipe
  rcases List.mem_append.mp hpipe with hleft | hright
  · rw [keepKnownOpcs] at hleft
    obtain ⟨hdrop, _⟩ := List.mem_filter.mp hleft
    rw [dropUnparsedDates] at hdrop
    exact (List.mem_filter.mp hdrop).1
  · obtain ⟨o, _, ho⟩ := List.mem_map.mp hright
    rw [← ho] at hsome
    simp at hsome

lemma countP_eq_one_of_nodup :
    ∀ (l : List String) (a : String), l.Nodup → a ∈ l →
      l.countP (fun o => o == a) = 1 := by
  intro l
  induction l with
  | nil => intro a _ ha; exact absurd ha (List.not_mem_nil a)
  | cons b t ih =>
    intro a hnd ha
    obtain ⟨hb, ht⟩ := List.nodup_cons.mp hnd
    rcases List.mem_cons.mp ha with hab | hat
    · subst hab
      have hzero : t.countP (fun o => o == a) = 0 := by
        refine List.countP_eq_zero.mpr (fun x hx => ?_)
        simp only [beq_iff_eq]
        intro hxa
        exact hb (hxa ▸ hx)
      rw [List.countP_cons, hzero, beq_self_eq_true a, if_pos rfl]
    · have hba : (b == a) = false :=
        beq_eq_false_iff_ne.mpr (fun hba => hb (hba ▸ hat))
      rw [List.countP_cons, ih a ht hat, hba, if_neg Bool.false_ne_true]

/-- The trajectory of an item with an empty shipment dictionary is pure
demand depletion: `stock_i = stock - i * add`. -/
lemma simWalk_nildict (add : ℚ) :
    ∀ (days : List String) (dIdx : Nat) (stock : ℚ) (dtn : Option Nat),
      (simWalk add [] days dIdx stock dtn).1
        = (List.range days.length).map (fun i : Nat => stock - ((i : ℚ) + 1) * add) := by
  intro days
  induction days with
  | nil => intro dIdx stock dtn; simp [simWalk]
  | cons day rest ih =>
    intro dIdx stock dtn
    rw [simWalk_cons]
    simp only [List.lookup_nil, Option.getD_none, add_zero]
    rw [ih]
    rw [List.length_cons, List.range_succ_eq_map, List.map_cons, List.map_map]
    refine List.cons_eq_cons.mpr ⟨by push_cast; ring, ?_⟩
    refine List.map_congr_left (fun i _ => ?_)
    simp only [Function.comp_apply]
    push_cast
    ring

unseal Rat.sub in
/-- C4 counterexample: the claim that each distinct reference identifier
appears exactly once in the Inventory Status output fails when the
reference table itself repeats an identifier — the loop at line 119 emits
one row per reference ROW, so two reference rows for OPC `"A"` yield two
output rows for `"A"`. -/
theorem claim_C4_counterexample :
    ((process_inventory [⟨"A", "d", "s", 1, 0⟩, ⟨"A", "d", "s", 1, 0⟩] [] ["x"]).1.countP
      (fun row => row.opc == "A")) = 2 := by
  decide

/-- C4 amended: the Inventory Status output has exactly one row per
reference ROW; hence, provided the reference identifiers are pairwise
distinct, every distinct reference identifier appears exactly once — even
an identifier with zero matching shipment records, whose row has
`totalShipped = 0` and a trajectory driven purely by demand subtraction. -/
theorem claim_C4_amended (refs : List RefRow) (input : List InputRow)
    (days : List String) (r : RefRow)
    (hnd : (refs.map RefRow.opc).Nodup) (hr : r ∈ refs) :
    ((process_inventory refs input days).1.countP (fun row => row.opc == r.opc)) = 1 ∧
    ((∀ s ∈ input, s.opc ≠ r.opc) →
      mkInvRow (aggRows refs input) days r ∈ (process_inventory refs input days).1 ∧
      (mkInvRow (aggRows refs input) days r).totalShip = 0 ∧
      (mkInvRow (aggRows refs input) days r).dailyInv
        = (List.range days.length).map (fun i : Nat => r.onHand - ((i : ℚ) + 1) * r.add)) := by
  constructor
  · rw [process_fst]
    calc (refs.map (fun rr => mkInvRow (aggRows refs input) days rr)).countP
          (fun row => row.opc == r.opc)
        = refs.countP (fun rr => rr.opc == r.opc) :=
          List.countP_map (fun row => row.opc == r.opc)
            (fun rr => mkInvRow (aggRows refs input) days rr) refs
      _ = (refs.map RefRow.opc).countP (fun o => o == r.opc) :=
          (List.countP_map (fun o => o == r.opc) RefRow.opc refs).symm
      _ = 1 := countP_eq_one_of_nodup _ _ hnd (List.mem_map_of_mem RefRow.opc hr)
  · intro hnone
    have hagg : ∀ s ∈ aggRows refs input, s.opc ≠ r.opc :=
      fun s hs => hnone s (mem_aggRows_imp hs)
    have hfil : (aggRows refs input).filter (fun row => row.opc == r.opc) = [] :=
      List.filter_eq_nil_iff.mpr
        (fun s hs => by simpa using hagg s hs)
    have hkeys : shipKeys (aggRows refs input) r.opc = [] := by
      rw [shipKeys, hfil]
      rfl
    have hdict : shipDict (aggRows refs input) r.opc = [] := by
      rw [shipDict, hkeys]
      rfl
    refine ⟨?_, ?_, ?_⟩
    · rw [process_fst]
      exact List.mem_map_of_mem _ hr
    · show totalShipOf (aggRows refs input) r.opc = 0
      rw [totalShipOf, hdict]
      rfl
    · show (simulate r.onHand r.add (shipDict (aggRows refs input) r.opc) days).1 = _
      rw [hdict, simulate, simWalk_nildict]

unseal Rat.sub in
/-- Witness for C4 amended at a one-item reference table with no
shipments. -/
theorem claim_C4_witness :
    (([(⟨"A", "d", "s", 1, 2⟩ : RefRow)].map RefRow.opc).Nodup ∧
      (⟨"A", "d", "s", 1, 2⟩ : RefRow) ∈ [(⟨"A", "d", "s", 1, 2⟩ : RefRow)]) ∧
    ((process_inventory [⟨"A", "d", "s", 1, 2⟩] [] ["x"]).1.countP
      (fun row => row.opc == "A")) = 1 ∧
    ((∀ s ∈ ([] : List InputRow), s.opc ≠ "A") →
      mkInvRow (aggRows [⟨"A", "d", "s", 1, 2⟩] []) ["x"] ⟨"A", "d", "s", 1, 2⟩ ∈
        (process_inventory [⟨"A", "d", "s", 1, 2⟩] [] ["x"]).1 ∧
      (mkInvRow (aggRows [⟨"A", "d", "s", 1, 2⟩] []) ["x"] ⟨"A", "d", "s", 1, 2⟩).totalShip = 0 ∧
      (mkInvRow (aggRows [⟨"A", "d", "s", 1, 2⟩] []) ["x"] ⟨"A", "d", "s", 1, 2⟩).dailyInv
        = (List.range (["x"] : List String).length).map
            (fun i : Nat => (1 : ℚ) - ((i : ℚ) + 1) * 2)) :=
  ⟨⟨by decide, by decide⟩,
    claim_C4_amended [⟨"A", "d", "s", 1, 2⟩] [] ["x"] ⟨"A", "d", "s", 1, 2⟩
      (by decide) (by decide)⟩

/-! ## Dropping records that the pipeline filters away -/

lemma keepKnown_drop_unknown (refs : List RefRow) (pre post : List InputRow)
    (s : InputRow) (hs : s.opc ∉ refs.map RefRow.opc) :
    keepKnownOpcs (refOpcs refs) (dropUnparsedDates (pre ++ s :: post))
      = keepKnownOpcs (refOpcs refs) (dropUnparsedDates (pre ++ post)) := by
  have hcont : (refOpcs refs).contains s.opc = false := by
    simp only [refOpcs]
    simp [mem_dedupStr, hs]
  cases hsd : s.dueDate.isSome with
  | false =>
    simp [dropUnparsedDates, List.filter_append, List.filter_cons, hsd]
  | true =>
    simp [dropUnparsedDates, keepKnownOpcs, List.filter_append, List.filter_cons, hsd, hcont]
    rw [refOpcs, mem_dedupStr]
    exact hs

/-- C5: a shipment record whose identifier is not among the reference
identifiers contributes nothing — the aggregation row-set and both output
sheets are unchanged when the record is dropped. -/
theorem claim_C5 (refs : List RefRow) (pre post : List InputRow) (s : InputRow)
    (days : List String) (hs : s.opc ∉ refs.map RefRow.opc) :
    aggRows refs (pre ++ s :: post) = aggRows refs (pre ++ post) ∧
    process_inventory refs (pre ++ s :: post) days
      = process_inventory refs (pre ++ post) days := by
  have hrows : pipelineRows refs (pre ++ s :: post) = pipelineRows refs (pre ++ post) := by
    rw [pipelineRows, pipelineRows, keepKnown_drop_unknown refs pre post s hs]
  have hagg : aggRows refs (pre ++ s :: post) = aggRows refs (pre ++ post) := by
    rw [aggRows, aggRows, hrows]
  refine ⟨hagg, Prod.ext ?_ ?_⟩
  · rw [process_fst, process_fst, hagg]
  · rw [process_snd, process_snd, hagg]

unseal Rat.add Rat.sub in
/-- Witness for C5: a shipment for the unknown identifier `"B"` leaves the
run over a one-item reference table unchanged. -/
theorem claim_C5_witness :
    (⟨"B", some "x", 5⟩ : InputRow).opc ∉ [(⟨"A", "d", "s", 1, 0⟩ : RefRow)].map RefRow.opc ∧
    (aggRows [⟨"A", "d", "s", 1, 0⟩] ([] ++ ⟨"B", some "x", 5⟩ :: [])
        = aggRows [⟨"A", "d", "s", 1, 0⟩] ([] ++ []) ∧
      process_inventory [⟨"A", "d", "s", 1, 0⟩] ([] ++ ⟨"B", some "x", 5⟩ :: []) ["x"]
        = process_inventory [⟨"A", "d", "s", 1, 0⟩] ([] ++ []) ["x"]) :=
  ⟨by decide,
    claim_C5 [⟨"A", "d", "s", 1, 0⟩] [] [] ⟨"B", some "x", 5⟩ ["x"] (by decide)⟩

/-- C7: a shipment row whose raw date text failed to parse is excluded
from all downstream aggregation and from both output tables; the failure
is recovered silently (the pipeline is total) — dropping the row changes
nothing. -/
theorem claim_C7 (refs : List RefRow) (pre post : List InputRow) (s : InputRow)
    (days : List String) (hs : s.dueDate = none) :
    aggRows refs (pre ++ s :: post) = aggRows refs (pre ++ post) ∧
    process_inventory refs (pre ++ s :: post) days
      = process_inventory refs (pre ++ post) days := by
  have hdrop : dropUnparsedDates (pre ++ s :: post) = dropUnparsedDates (pre ++ post) := by
    simp [dropUnparsedDates, List.filter_append, List.filter_cons, hs]
  have hrows : pipelineRows refs (pre ++ s :: post) = pipelineRows refs (pre ++ post) := by
    rw [pipelineRows, pipelineRows, hdrop]
  have hagg : aggRows refs (pre ++ s :: post) = aggRows refs (pre ++ post) := by
    rw [aggRows, aggRows, hrows]
  refine ⟨hagg, Prod.ext ?_ ?_⟩
  · rw [process_fst, process_fst, hagg]
  · rw [process_snd, process_snd, hagg]

unseal Rat.add Rat.sub in
/-- Witness for C7: a known-identifier shipment row with an unparsable
date contributes nothing to the run. -/
theorem claim_C7_witness :
    (⟨"A", none, 7⟩ : InputRow).dueDate = none ∧
    (aggRows [⟨"A", "d", "s", 1, 0⟩] ([] ++ ⟨"A", none, 7⟩ :: [])
        = aggRows [⟨"A", "d", "s", 1, 0⟩] ([] ++ []) ∧
      process_inventory [⟨"A", "d", "s", 1, 0⟩] ([] ++ ⟨"A", none, 7⟩ :: []) ["x"]
        = process_inventory [⟨"A", "d", "s", 1, 0⟩] ([] ++ []) ["x"]) :=
  ⟨rfl, claim_C7 [⟨"A", "d", "s", 1, 0⟩] [] [] ⟨"A", none, 7⟩ ["x"] rfl⟩

/-! ## The quantity normalizers -/

/-- C6: the three per-field normalizers are one identical total rule —
strip commas and surrounding whitespace, parse as a float, return `0.0`
for a blank result or any parse failure (totality: no exception can
escape) — and on the spec's sample cells `"N/A"`, `""`, `"1,234"` they
return `0.0`, `0.0`, `1234.0`. -/
theorem claim_C6 :
    (∀ v : String, format_add v = format_on_hand v ∧ format_add v = format_ship_qty v) ∧
    format_on_hand "N/A" = 0 ∧ format_on_hand "" = 0 ∧ format_on_hand "1,234" = 1234 ∧
    format_add "N/A" = 0 ∧ format_add "" = 0 ∧ format_add "1,234" = 1234 ∧
    format_ship_qty "N/A" = 0 ∧ format_ship_qty "" = 0 ∧ format_ship_qty "1,234" = 1234 :=
  ⟨fun _ => ⟨rfl, rfl⟩, by decide, by decide, by decide, by decide, by decide,
    by decide, by decide, by decide, by decide⟩

/-- C8 counterexample: the coerced on-hand and shipment quantities are not
always `≥ 0` — the normalizers parse a leading minus sign, so the cell
`"-1"` coerces to `-1 < 0`. -/
theorem claim_C8_counterexample :
    format_on_hand "-1" = -1 ∧ format_on_hand "-1" < 0 ∧
    format_ship_qty "-1" = -1 ∧ format_ship_qty "-1" < 0 := by
  decide

lemma mkRat_int_nonneg (n : Int) (hn : 0 ≤ n) (d : Nat) : 0 ≤ mkRat n d := by
  rw [Rat.mkRat_eq_div]
  apply div_nonneg
  · exact_mod_cast hn
  · positivity

lemma parseExpMag_nonneg (num den : Nat) (isPos : Bool) (ds : List Char) (q : ℚ)
    (h : parseExpMag num den isPos ds = some q) : 0 ≤ q := by
  rw [parseExpMag] at h
  split at h
  · exact absurd h (by simp)
  · rw [Option.some.injEq] at h
    rw [← h]
    cases isPos
    · rw [if_neg Bool.false_ne_true]
      exact mkRat_int_nonneg _ (by positivity) _
    · rw [if_pos rfl]
      exact mkRat_int_nonneg _ (by positivity) _

lemma parseMantissaRest_nonneg (num den : Nat) (rest : List Char) (q : ℚ)
    (h : parseMantissaRest num den rest = some q) : 0 ≤ q := by
  cases rest with
  | nil =>
    rw [parseMantissaRest, Option.some.injEq] at h
    rw [← h]
    exact mkRat_int_nonneg _ (by positivity) _
  | cons c t =>
    rw [parseMantissaRest] at h
    split at h
    · exact parseExpMag_nonneg _ _ _ _ _ h
    · exact absurd h (by simp)

lemma parseUnsignedFloat_nonneg (cs : List Char) (q : ℚ)
    (h : parseUnsignedFloat cs = some q) : 0 ≤ q := by
  rw [parseUnsignedFloat] at h
  split at h
  · exact absurd h (by simp)
  · exact parseMantissaRest_nonneg _ _ _ _ h

lemma stripSign_fst_of_no_minus (cs : List Char) (hm : '-' ∉ cs) :
    (stripSign cs).1 = true := by
  cases cs with
  | nil => rfl
  | cons c t =>
    have hc : (c == '-') = false :=
      beq_eq_false_iff_ne.mpr (fun hcm => hm (hcm ▸ List.mem_cons_self c t))
    rw [stripSign]
    rw [hc]
    simp only [Bool.false_eq_true, if_false]
    split <;> rfl

lemma parsePyFloat_nonneg (cs : List Char) (hm : '-' ∉ cs) (q : ℚ)
    (hp : parsePyFloat cs = some q) : 0 ≤ q := by
  rw [parsePyFloat, stripSign_fst_of_no_minus cs hm, if_pos rfl] at hp
  exact parseUnsignedFloat_nonneg _ _ hp

lemma mem_of_mem_pyStrip {c : Char} {cs : List Char} (h : c ∈ pyStrip cs) : c ∈ cs := by
  rw [pyStrip] at h
  rw [List.mem_reverse] at h
  have h2 := (List.dropWhile_sublist pyIsSpace).subset h
  rw [List.mem_reverse] at h2
  exact (List.dropWhile_sublist pyIsSpace).subset h2

/-- C8 amended: the coercion does not enforce the data model's `number≥0`
typing — a negative numeral coerces to its negative value (the
counterexample). What holds instead, on a cell whose stripped text is a
finite decimal literal (the inputs where Python's `float` and this model
agree; special texts such as `nan`, which `float` also accepts and which
yields NaN in the program, are outside this guarantee): the coerced
on-hand and shipment quantities are that literal's value, and that value
is nonnegative whenever the cell text contains no minus sign. -/
theorem claim_C8_amended (v : String) (q : ℚ)
    (hq : parsePyFloat (pyStrip (stripCommas v.data)) = some q) :
    format_on_hand v = q ∧ format_ship_qty v = q ∧ ('-' ∉ v.data → 0 ≤ q) := by
  have hform : format_on_hand v = q := by
    show (if (pyStrip (stripCommas v.data)).isEmpty then (0:ℚ)
      else (parsePyFloat (pyStrip (stripCommas v.data))).getD 0) = q
    cases hs : (pyStrip (stripCommas v.data)).isEmpty with
    | true =>
      have hnil : pyStrip (stripCommas v.data) = [] := by simpa using hs
      rw [hnil, show parsePyFloat [] = none from rfl] at hq
      exact Option.noConfusion hq
    | false =>
      rw [if_neg Bool.false_ne_true, hq]
      rfl
  refine ⟨hform, hform, fun hv => ?_⟩
  have hs : '-' ∉ pyStrip (stripCommas v.data) := by
    intro hmem
    exact hv (List.mem_of_mem_filter (mem_of_mem_pyStrip hmem))
  exact parsePyFloat_nonneg _ hs q hq

/-- Witness for C8 amended at the cell `"5"`. -/
theorem claim_C8_witness :
    parsePyFloat (pyStrip (stripCommas ("5" : String).data)) = some 5 ∧
    (format_on_hand "5" = 5 ∧ format_ship_qty "5" = 5 ∧
      ('-' ∉ ("5" : String).data → 0 ≤ (5 : ℚ))) :=
  ⟨by decide, claim_C8_amended "5" 5 (by decide)⟩

lemma stripCommas_idem (cs : List Char) : stripCommas (stripCommas cs) = stripCommas cs := by
  rw [stripCommas, stripCommas, List.filter_filter]
  simp [Bool.and_self]

/-- C10: the normalizer deletes every comma anywhere in the cell text, not
only thousands separators — deleting all commas first changes nothing, and
`"1,5"` parses as `15.0`, `"1,2,3"` as `123.0` (never as decimal
fractions, never rejected). -/
theorem claim_C10 :
    (∀ v : String, format_add v = format_add ⟨stripCommas v.data⟩ ∧
      format_ship_qty v = format_ship_qty ⟨stripCommas v.data⟩) ∧
    format_add "1,5" = 15 ∧ format_add "1,2,3" = 123 ∧
    format_ship_qty "1,5" = 15 ∧ format_ship_qty "1,2,3" = 123 := by
  refine ⟨fun v => ⟨?_, ?_⟩, by decide, by decide, by decide, by decide⟩
  · show (if (pyStrip (stripCommas v.data)).isEmpty then (0:ℚ)
        else (parsePyFloat (pyStrip (stripCommas v.data))).getD 0)
      = (if (pyStrip (stripCommas (stripCommas v.data))).isEmpty then (0:ℚ)
        else (parsePyFloat (pyStrip (stripCommas (stripCommas v.data)))).getD 0)
    rw [stripCommas_idem]
  · show (if (pyStrip (stripCommas v.data)).isEmpty then (0:ℚ)
        else (parsePyFloat (pyStrip (stripCommas v.data))).getD 0)
      = (if (pyStrip (stripCommas (stripCommas v.data))).isEmpty then (0:ℚ)
        else (parsePyFloat (pyStrip (stripCommas (stripCommas v.data)))).getD 0)
    rw [stripCommas_idem]

/-! ## The table loader -/

/-- C9: the loader's contract ("MissingColumns iff neither offset shows the
required headers; otherwise return the offset's row-set") breaks on a
header-only sheet: with the required headers in row 0 and no data rows,
`df.iloc[0]` raises `IndexError` before the column check, so the loader
fails — and not with the MissingColumns error — although offset 0 yields a
frame containing every required column. -/
theorem claim_C9_eval :
    readExcelTable [[some "OPC", some "Due Date", some "Ship Qty"]] 0
      = some ⟨[some "OPC", some "Due Date", some "Ship Qty"], []⟩ ∧
    hasRequiredColumns ⟨[some "OPC", some "Due Date", some "Ship Qty"], []⟩
      ["OPC", "Due Date", "Ship Qty"] = true ∧
    try_read_excel_line_check [[some "OPC", some "Due Date", some "Ship Qty"]]
      ["OPC", "Due Date", "Ship Qty"] = LoadResult.error LoadError.indexError := by
  refine ⟨by decide, by decide, by decide⟩
